import Mathlib

/-!
# Verification of the `uis` (Userspace Internet Simulation) core

Shallow embedding of the virtual link-layer fabric of the `uis` Go package:
the `VNIC` virtual endpoint (`vnic.go`), the `Internet` router
(`internet.go`), and the `PCAPTrace` capture sink (`pcap.go`), together
with proofs about frame injection, transmission, routing, route
registration, capture, and construction options.

Bytes are modelled as `Nat` (a Go `byte` is a value `< 256`; all the
operations used here — nibble extraction, slicing, length comparison —
are computed the same way on the `Nat` superset).  Frames are byte lists,
`netip.Addr` values are their raw byte slices (length 4 for IPv4, 16 for
IPv6, so distinct kinds are never equal).  Locks are elided: every
theorem speaks about one linearized execution, which is what the
reader/writer locks in the Go code guarantee of each operation.
Go panics are modelled as `Except.error`.
-/

set_option autoImplicit false

namespace UIS


/-- A raw byte (Go `byte`); operations only ever divide or compare it. -/
abbrev Byte := Nat

/-- `VNICFrame.Packet`: one raw IPv4/IPv6 packet. -/
abbrev Frame := List Byte

/-- A `netip.Addr` as the raw bytes it was built from via
`netip.AddrFromSlice` (length 4 = IPv4, length 16 = IPv6). -/
abbrev IPAddr := List Byte

/-- gVisor `ipv4.ProtocolNumber`. -/
def ipv4ProtocolNumber : Nat := 0x0800

/-- gVisor `ipv6.ProtocolNumber`. -/
def ipv6ProtocolNumber : Nat := 0x86DD

/-- The defensive copy made by `make([]byte, len(pkt)); copy(copied, pkt)`:
a fresh buffer holding the same bytes. -/
def copyBytes (b : List Byte) : List Byte := b.map id

/-- The mutable state of a `VNIC` (vnic.go).  The `disp` field holds the
identity of the attached `stack.NetworkDispatcher` (`none` = Go `nil`);
`closefunc` records whether a close hook is registered; `hasNetwork`
states whether the `network` field is non-nil. -/
structure VNIC where
  closefunc : Option Unit
  disp : Option Nat
  hasNetwork : Bool
  isclosed : Bool
  laddr : String
  mtu : Nat
deriving DecidableEq, Repr

/-- `NewVNIC`: created detached and open, with empty link address. -/
def NewVNIC (mtu : Nat) (hasNetwork : Bool) : VNIC :=
  { closefunc := none, disp := none, hasNetwork := hasNetwork,
    isclosed := false, laddr := "", mtu := mtu }

/-- `vnicDetectNetworkProtocol` (vnic.go): `runtimex.Assert(len(pkt) > 0)`
panics on an empty packet (modelled by `Except.error`); otherwise the
version nibble `pkt[0] >> 4` selects the protocol number, with `ok=false`
(modelled by `Option.none`) for unknown nibbles. -/
def vnicDetectNetworkProtocol (pkt : Frame) : Except Unit (Option Nat) :=
  match pkt with
  | [] => .error ()
  | b :: _ =>
    if b / 16 = 4 then .ok (some ipv4ProtocolNumber)
    else if b / 16 = 6 then .ok (some ipv6ProtocolNumber)
    else .ok none

/-- `VNIC.InjectFrame` (vnic.go).  The result carries the returned boolean
and what `disp.DeliverNetworkPacket` received: `none` when the dispatcher
was not invoked, `some (proto, bytes)` when it was.  `Except.error`
would mean a Go panic escaped.  The MTU guard is Go's
`uint32(len(pkt)) > n.mtu`: the conversion truncates the length modulo
`2 ^ 32`. -/
def VNIC.InjectFrame (n : VNIC) (frame : Frame) :
    Except Unit (Bool × Option (Nat × Frame)) :=
  let pkt := frame
  if pkt.length ≤ 0 then .ok (false, none)
  else
    match vnicDetectNetworkProtocol pkt with
    | .error e => .error e
    | .ok none => .ok (false, none)
    | .ok (some proto) =>
      if n.isclosed || n.disp.isNone then .ok (false, none)
      else if pkt.length % 2 ^ 32 > n.mtu then .ok (false, none)
      else .ok (true, some (proto, copyBytes pkt))

/-- `VNIC.Attach` (vnic.go): installs the dispatcher unless the endpoint
is closed; passing `none` detaches. -/
def VNIC.Attach (n : VNIC) (disp : Option Nat) : VNIC :=
  if !n.isclosed then { n with disp := disp } else n

/-- `VNIC.Close` (vnic.go): on the first call marks closed, clears the
dispatcher, and invokes the close hook when one is registered.  Returns
the new state and the number of close-hook invocations this call made. -/
def VNIC.Close (n : VNIC) : VNIC × Nat :=
  if !n.isclosed then
    ({ n with isclosed := true, disp := none },
      if n.closefunc.isSome then 1 else 0)
  else (n, 0)

/-- The state-mutating operations of a `VNIC` (`SetOnCloseAction`,
`SetLinkAddress` and `SetMTU` write their field unconditionally;
`Attach` and `Close` guard on the closed flag). -/
inductive VNICOp where
  | attach (disp : Option Nat)
  | close
  | setMTU (mtu : Nat)
  | setLinkAddress (laddr : String)
  | setOnCloseAction (action : Option Unit)
deriving DecidableEq, Repr

/-- One mutating call on a `VNIC`: next state and close-hook invocations. -/
def VNIC.step (n : VNIC) : VNICOp → VNIC × Nat
  | .attach d => (n.Attach d, 0)
  | .close => n.Close
  | .setMTU m => ({ n with mtu := m }, 0)
  | .setLinkAddress a => ({ n with laddr := a }, 0)
  | .setOnCloseAction act => ({ n with closefunc := act }, 0)

/-- A sequence of mutating calls: final state and total hook invocations. -/
def VNIC.run (n : VNIC) : List VNICOp → VNIC × Nat
  | [] => (n, 0)
  | op :: ops =>
    let s := n.step op
    let r := s.1.run ops
    (r.1, s.2 + r.2)

/-- The loop of `VNIC.WritePackets` (vnic.go, step 3).  `send` is the
`VNICNetwork.SendFrame` primitive with its state threaded explicitly;
the third component is the trace of `SendFrame` calls (frame sent,
accepted flag), in order.  The MTU guard is Go's
`uint32(len(payload)) > mtu`: the conversion truncates the length modulo
`2 ^ 32`. -/
def writeLoop {σ : Type} (send : σ → Frame → σ × Bool) (mtu : Nat) :
    List Frame → σ → Nat × σ × List (Frame × Bool)
  | [], s => (0, s, [])
  | pb :: rest, s =>
    if pb.length ≤ 0 then writeLoop send mtu rest s
    else if pb.length % 2 ^ 32 > mtu then writeLoop send mtu rest s
    else
      match send s pb with
      | (s1, accepted) =>
        match writeLoop send mtu rest s1 with
        | (num, s2, tr) =>
          ((if accepted then num + 1 else num), s2, (pb, accepted) :: tr)

/-- `VNIC.WritePackets` (vnic.go): the packet buffers are given already
serialized to byte frames (`vnicPacketBufferToBytes` copies each buffer).
Returns (number sent, final network state, `SendFrame` call trace,
returned `tcpip.Error`, which the Go code always leaves nil). -/
def VNIC.WritePackets {σ : Type} (n : VNIC) (send : σ → Frame → σ × Bool)
    (s : σ) (pkts : List Frame) :
    Nat × σ × List (Frame × Bool) × Option Unit :=
  if n.isclosed || !n.hasNetwork then (0, s, [], none)
  else
    match writeLoop send n.mtu pkts s with
    | (num, s1, tr) => (num, s1, tr, none)

/-- The `Internet.routes` map, `netip.Addr → *VNIC`, as an association
list keyed by the raw address bytes and holding VNIC identities.
`Internet.AddRoute` only ever inserts keys that are absent, so keys stay
unique and first-match lookup is exactly Go map lookup. -/
abbrev Routes := List (IPAddr × Nat)

/-- Go map read `ix.routes[addr]` (`none` = zero value / absent). -/
def lookupRoute : Routes → IPAddr → Option Nat
  | [], _ => none
  | (k, v) :: rest, a => if k = a then some v else lookupRoute rest a

/-- `Internet.AddRoute` (internet.go): walk the addresses in order; fail
at the first one already present (returning it as the duplicate-address
error), keeping every insertion already made; bind each fresh address to
the given VNIC. -/
def Internet.AddRoute (routes : Routes) (vnic : Nat) :
    List IPAddr → Routes × Option IPAddr
  | [] => (routes, none)
  | a :: rest =>
    if (lookupRoute routes a).isSome then (routes, some a)
    else Internet.AddRoute ((a, vnic) :: routes) vnic rest

/-- `internetParseDestinationIP` (internet.go): switch on the version
nibble `pkt[0] >> 4`; IPv4 needs ≥ 20 bytes and takes `pkt[16:20]`,
IPv6 needs ≥ 40 bytes and takes `pkt[24:40]`; anything else fails.
(`netip.AddrFromSlice` always succeeds on 4- and 16-byte slices.) -/
def internetParseDestinationIP (pkt : Frame) : Option IPAddr :=
  if pkt.length < 1 then none
  else if pkt.headD 0 / 16 = 4 then
    if pkt.length < 20 then none else some ((pkt.drop 16).take 4)
  else if pkt.headD 0 / 16 = 6 then
    if pkt.length < 40 then none else some ((pkt.drop 24).take 16)
  else none

/-- `Internet.Deliver` (internet.go): parse the destination, look it up
in the routing table, and hand the frame to the target VNIC.  The second
component of the result is the list of `InjectFrame` calls made
(endpoint identity, frame), in order. -/
def Internet.Deliver (routes : Routes) (vnics : Nat → VNIC) (frame : Frame) :
    Except Unit (Bool × List (Nat × Frame)) :=
  match internetParseDestinationIP frame with
  | none => .ok (false, [])
  | some dstIP =>
    match lookupRoute routes dstIP with
    | none => .ok (false, [])
    | some nic =>
      match (vnics nic).InjectFrame frame with
      | .error e => .error e
      | .ok (res, _) => .ok (res, [(nic, frame)])

/-- The `Internet.inflight` bounded channel: capacity fixed at
construction, current buffered frames in order. -/
structure InternetState where
  cap : Nat
  inflight : List Frame
deriving DecidableEq, Repr

/-- `internetVNICNetwork.SendFrame` (internet.go): a `select` with a
`default` branch on the buffered channel — succeeds exactly when the
buffer has room, otherwise drops the frame and returns `false`, never
blocking. -/
def internetVNICNetworkSendFrame (ix : InternetState) (frame : Frame) :
    InternetState × Bool :=
  if ix.inflight.length < ix.cap then
    ({ ix with inflight := ix.inflight ++ [frame] }, true)
  else (ix, false)

/-- `DefaultMaxInflight` (internet.go). -/
def DefaultMaxInflight : Int := 1024

/-- `internetConfig` (internet.go); the Go field is an `int`. -/
structure internetConfig where
  maxInflight : Int
deriving DecidableEq, Repr

/-- `InternetOptionMaxInflight` (internet.go): stores the value with no
validation whatsoever. -/
def InternetOptionMaxInflight (max : Int) :
    internetConfig → internetConfig :=
  fun cfg => { cfg with maxInflight := max }

/-- `NewInternet` (internet.go): fold the options over the default
configuration, then `make(chan VNICFrame, cfg.maxInflight)` — which
panics (modelled as `Except.error`) on a negative capacity and otherwise
creates a channel of exactly that capacity. -/
def NewInternet (options : List (internetConfig → internetConfig)) :
    Except Unit InternetState :=
  let cfg := options.foldl (fun c opt => opt c)
    { maxInflight := DefaultMaxInflight }
  if cfg.maxInflight < 0 then .error ()
  else .ok { cap := cfg.maxInflight.toNat, inflight := [] }

/-- `pcapTraceConfig` (pcap.go / PCAPTrace variant). -/
structure pcapTraceConfig where
  bufferSize : Int
deriving DecidableEq, Repr

/-- `PCAPTraceOptionBuffer`: a zero or negative value is silently
ignored, keeping the previous (default 4096) buffer size. -/
def PCAPTraceOptionBuffer (bufferSize : Int) :
    pcapTraceConfig → pcapTraceConfig :=
  fun cfg => if bufferSize > 0 then { cfg with bufferSize := bufferSize }
    else cfg

/-- `pcapSnapshot` (pcap.go): truncated copy plus true original length. -/
structure pcapSnapshot where
  data : Frame
  length : Nat
deriving DecidableEq, Repr

/-- The observable state of a capture trace: drop counter, buffered
snapshot queue with its capacity, and the configured snapshot size. -/
structure PCAPTrace where
  dropped : Nat
  snaps : List pcapSnapshot
  snapsCap : Nat
  snapSize : Nat
deriving DecidableEq, Repr

/-- `PCAPTrace.Dump` (pcap.go): copy the first
`min(len(packet), snapSize)` bytes, record the true length, and do a
non-blocking channel send (`select` with `default`): append when the
queue has room, otherwise bump the drop counter and discard.  A total
function — it never blocks and never reports an error. -/
def PCAPTraceDump (tr : PCAPTrace) (packet : Frame) : PCAPTrace :=
  let snapLen := min packet.length tr.snapSize
  let packetSnap := packet.take snapLen
  if tr.snaps.length < tr.snapsCap then
    { tr with snaps :=
        tr.snaps ++ [{ data := packetSnap, length := packet.length }] }
  else
    { tr with dropped := tr.dropped + 1 }

/-- `PCAPTrace.Dropped` (pcap.go): read the drop counter. -/
def PCAPTraceDropped (tr : PCAPTrace) : Nat := tr.dropped

/-- A write outcome of the capture sink: `none` = success. -/
abbrev WriteResult := Option Nat

/-- The record-writing part of `PCAPTrace.saveLoop` (part of the
PCAPTrace variant of pcap.go): write buffered snapshots in order and
stop at the first failing write, recording its error on `errch`;
when every write succeeds the loop ends with `nil` on `errch`. -/
def pcapRecordLoop : List WriteResult → Option Nat
  | [] => none
  | none :: rest => pcapRecordLoop rest
  | some e :: _ => some e

/-- `PCAPTrace.saveLoop` outcome: the value sent on `errch` — a failing
header write sends its error; otherwise the record loop's outcome. -/
def PCAPTraceSaveLoopResult (headerResult : WriteResult)
    (recordResults : List WriteResult) : Option Nat :=
  match headerResult with
  | some e => some e
  | none => pcapRecordLoop recordResults

/-- The record-writing part of `PcapTrace.saveLoop` in pcap.go: on a
failing `savePacket` the code runs `tr.errch <- nil` (despite having
just checked `err != nil`), so the loop terminates but the error value
sent on `errch` is nil. -/
def pcapGoRecordLoop : List WriteResult → Option Nat
  | [] => none
  | none :: rest => pcapGoRecordLoop rest
  | some _ :: _ => none

/-- `PcapTrace.saveLoop` (pcap.go) outcome: a failing header write sends
its error, but a failing record write sends nil. -/
def PcapTraceSaveLoopResult (headerResult : WriteResult)
    (recordResults : List WriteResult) : Option Nat :=
  match headerResult with
  | some e => some e
  | none => pcapGoRecordLoop recordResults

/-- `errors.Join(err1, err2)`: the multiset of non-nil errors; Go's
`errors.Join` returns nil exactly when the list is empty. -/
def errorsJoin (err1 err2 : Option Nat) : List Nat :=
  err1.toList ++ err2.toList

/-- First `PCAPTrace.Close`: joins the background task's recorded error
with the sink-close error. -/
def PCAPTraceCloseResult (headerResult : WriteResult)
    (recordResults : List WriteResult) (closeErr : Option Nat) : List Nat :=
  errorsJoin (PCAPTraceSaveLoopResult headerResult recordResults) closeErr

/-- First `PcapTrace.Close` (pcap.go): same join, over the pcap.go
save-loop outcome. -/
def PcapTraceCloseResult (headerResult : WriteResult)
    (recordResults : List WriteResult) (closeErr : Option Nat) : List Nat :=
  errorsJoin (PcapTraceSaveLoopResult headerResult recordResults) closeErr

@[simp] theorem copyBytes_eq (b : List Byte) : copyBytes b = b := by
  simp [copyBytes]

/-- C9: `VNIC.InjectFrame` is total and panic-free on every input frame:
the zero-length guard at its entry ensures the assertion inside
`vnicDetectNetworkProtocol` always holds when that function is reached,
so the call always evaluates to `Except.ok` with a boolean result. -/
theorem injectFrame_total_no_panic (n : VNIC) (frame : Frame) :
    ∃ accepted delivered,
      VNIC.InjectFrame n frame = .ok (accepted, delivered) := by
  match frame with
  | [] => exact ⟨false, none, rfl⟩
  | b :: rest =>
    have hdet : ∃ o, vnicDetectNetworkProtocol (b :: rest) = .ok o := by
      by_cases h4 : b / 16 = 4
      · exact ⟨some ipv4ProtocolNumber, by simp [vnicDetectNetworkProtocol, h4]⟩
      · by_cases h6 : b / 16 = 6
        · exact ⟨some ipv6ProtocolNumber, by simp [vnicDetectNetworkProtocol, h4, h6]⟩
        · exact ⟨none, by simp [vnicDetectNetworkProtocol, h4, h6]⟩
    obtain ⟨o, ho⟩ := hdet
    match o with
    | none => exact ⟨false, none, by simp [VNIC.InjectFrame, ho]⟩
    | some proto =>
      by_cases hc : (n.isclosed || n.disp.isNone) = true
      · exact ⟨false, none, by simp [VNIC.InjectFrame, ho, hc]⟩
      · by_cases hm : n.mtu < (rest.length + 1) % 4294967296
        · exact ⟨false, none, by simp [VNIC.InjectFrame, ho, hc, hm]⟩
        · exact ⟨true, some (proto, copyBytes (b :: rest)), by
            simp only [VNIC.InjectFrame, ho]
            simp [hc, hm]⟩

/-- C2 (amended): `VNIC.InjectFrame` returns `false` and invokes no
dispatcher when the frame is empty, when its leading nibble is neither 4
nor 6, when the endpoint is closed, when no dispatcher is attached, or
when the frame's length truncated to 32 bits — Go computes
`uint32(len(pkt))`, i.e. `len(p) mod 2^32` — exceeds the MTU; otherwise
(nonempty, truncated length within MTU, recognizable version nibble,
open and attached) it returns `true` and the dispatcher receives the
parsed protocol family with a byte-identical copy of the frame. -/
theorem injectFrame_accept_reject_spec (n : VNIC) (p : Frame) :
    (p = [] → n.InjectFrame p = .ok (false, none))
  ∧ ((p.headD 0) / 16 ≠ 4 → (p.headD 0) / 16 ≠ 6 →
      n.InjectFrame p = .ok (false, none))
  ∧ (n.isclosed = true → n.InjectFrame p = .ok (false, none))
  ∧ (n.disp = none → n.InjectFrame p = .ok (false, none))
  ∧ (p.length % 2 ^ 32 > n.mtu → n.InjectFrame p = .ok (false, none))
  ∧ (0 < p.length → p.length % 2 ^ 32 ≤ n.mtu → n.isclosed = false →
      n.disp.isSome = true →
      ((p.headD 0) / 16 = 4 →
        n.InjectFrame p = .ok (true, some (ipv4ProtocolNumber, p)))
    ∧ ((p.headD 0) / 16 = 6 →
        n.InjectFrame p = .ok (true, some (ipv6ProtocolNumber, p)))) := by
  refine ⟨?_, ?_, ?_, ?_, ?_, ?_⟩
  · intro h; subst h; rfl
  · intro h4 h6
    match p with
    | [] => rfl
    | b :: rest =>
      have hb4 : ¬ b / 16 = 4 := by simpa using h4
      have hb6 : ¬ b / 16 = 6 := by simpa using h6
      simp [VNIC.InjectFrame, vnicDetectNetworkProtocol, hb4, hb6]
  · intro hcl
    match p with
    | [] => rfl
    | b :: rest =>
      by_cases h4 : b / 16 = 4
      · simp [VNIC.InjectFrame, vnicDetectNetworkProtocol, h4, hcl]
      · by_cases h6 : b / 16 = 6
        · simp [VNIC.InjectFrame, vnicDetectNetworkProtocol, h4, h6, hcl]
        · simp [VNIC.InjectFrame, vnicDetectNetworkProtocol, h4, h6]
  · intro hd
    match p with
    | [] => rfl
    | b :: rest =>
      by_cases h4 : b / 16 = 4
      · simp [VNIC.InjectFrame, vnicDetectNetworkProtocol, h4, hd]
      · by_cases h6 : b / 16 = 6
        · simp [VNIC.InjectFrame, vnicDetectNetworkProtocol, h4, h6, hd]
        · simp [VNIC.InjectFrame, vnicDetectNetworkProtocol, h4, h6]
  · intro hm
    match p with
    | [] => simp at hm
    | b :: rest =>
      have hm' : n.mtu < (rest.length + 1) % 4294967296 := by simpa using hm
      by_cases h4 : b / 16 = 4
      · cases hcl : n.isclosed
        · cases hd : n.disp
          · simp [VNIC.InjectFrame, vnicDetectNetworkProtocol, h4, hcl, hd]
          · simp [VNIC.InjectFrame, vnicDetectNetworkProtocol, h4, hcl, hd, hm']
        · simp [VNIC.InjectFrame, vnicDetectNetworkProtocol, h4, hcl]
      · by_cases h6 : b / 16 = 6
        · cases hcl : n.isclosed
          · cases hd : n.disp
            · simp [VNIC.InjectFrame, vnicDetectNetworkProtocol, h4, h6, hcl, hd]
            · simp [VNIC.InjectFrame, vnicDetectNetworkProtocol, h4, h6, hcl, hd,
                hm']
          · simp [VNIC.InjectFrame, vnicDetectNetworkProtocol, h4, h6, hcl]
        · simp [VNIC.InjectFrame, vnicDetectNetworkProtocol, h4, h6]
  · intro hlen hmtu hcl hd
    match p with
    | [] => simp at hlen
    | b :: rest =>
      obtain ⟨d, hd'⟩ := Option.isSome_iff_exists.mp hd
      have hmtu' : (rest.length + 1) % 4294967296 ≤ n.mtu := by simpa using hmtu
      have hm' : ¬ n.mtu < (rest.length + 1) % 4294967296 :=
        Nat.not_lt.mpr hmtu'
      constructor
      · intro h4
        have hb4 : b / 16 = 4 := by simpa using h4
        simp [VNIC.InjectFrame, vnicDetectNetworkProtocol, hb4, hcl, hd', hm']
      · intro h6
        have hb6 : b / 16 = 6 := by simpa using h6
        have hb4 : ¬ b / 16 = 4 := by simp [hb6]
        simp [VNIC.InjectFrame, vnicDetectNetworkProtocol, hb4, hb6, hcl, hd',
          hm']

/-- Witness for C2: a 4-byte IPv4-nibble frame injected into an open,
attached endpoint with MTU 1500 is accepted and delivered unchanged. -/
theorem injectFrame_accept_reject_spec_witness :
    VNIC.InjectFrame ⟨none, some 0, true, false, "", 1500⟩ [0x45, 0, 0, 0] =
      .ok (true, some (ipv4ProtocolNumber, [0x45, 0, 0, 0])) := by
  have h := injectFrame_accept_reject_spec ⟨none, some 0, true, false, "", 1500⟩
    [0x45, 0, 0, 0]
  exact (h.2.2.2.2.2 (by decide) (by decide) rfl rfl).1 (by decide)

/-- Counterexample to C2 as stated: an IPv4-nibble frame of length
`2^32 + 20` (`4294967316`), vastly exceeding the MTU of 1500, is
nevertheless accepted and delivered by `InjectFrame`, because Go's
`uint32(len(pkt))` conversion wraps the length to 20 before the MTU
comparison. -/
theorem injectFrame_mtu_wrap_counterexample :
    1500 < ((0x45 : Byte) :: List.replicate 4294967315 (0 : Byte)).length
  ∧ VNIC.InjectFrame ⟨none, some 0, true, false, "", 1500⟩
      ((0x45 : Byte) :: List.replicate 4294967315 (0 : Byte)) =
      .ok (true, some (ipv4ProtocolNumber,
        (0x45 : Byte) :: List.replicate 4294967315 (0 : Byte))) := by
  have hlen : ((0x45 : Byte) :: List.replicate 4294967315 (0 : Byte)).length
      = 4294967316 := by
    rw [List.length_cons, List.length_replicate]
  have hdet : vnicDetectNetworkProtocol
      ((0x45 : Byte) :: List.replicate 4294967315 (0 : Byte)) =
      .ok (some ipv4ProtocolNumber) := rfl
  constructor
  · rw [hlen]
    norm_num
  · simp only [VNIC.InjectFrame, hdet]
    rw [hlen, if_neg (by norm_num), if_neg (by norm_num), if_neg (by norm_num),
      copyBytes_eq]

/-- Counterexample to C5 as stated: a single frame of length `2^32`
against an MTU of 2 is forwarded and counted as sent, because Go's
`uint32(len(payload))` conversion wraps the length to 0 before the MTU
comparison. -/
theorem writePackets_mtu_wrap_counterexample :
    2 < (List.replicate 4294967296 (1 : Byte)).length
  ∧ (VNIC.WritePackets (σ := Nat) ⟨none, none, true, false, "", 2⟩
      (fun st _ => (st, true)) 0 [List.replicate 4294967296 (1 : Byte)]).1
      = 1 := by
  have hlen : (List.replicate 4294967296 (1 : Byte)).length = 4294967296 := by
    rw [List.length_replicate]
  constructor
  · rw [hlen]
    norm_num
  · rw [VNIC.WritePackets]
    rw [if_neg (by norm_num)]
    rw [writeLoop]
    rw [hlen]
    rw [if_neg (by norm_num), if_neg (by norm_num)]
    rfl

/-- A closed endpoint stays closed under any single operation, the
operation invokes no hook, and a cleared dispatcher stays cleared. -/
theorem step_closed_absorbing (n : VNIC) (op : VNICOp) (h : n.isclosed = true) :
    (n.step op).1.isclosed = true ∧ (n.step op).2 = 0 ∧
      (n.disp = none → (n.step op).1.disp = none) := by
  cases op <;> simp [VNIC.step, VNIC.Attach, VNIC.Close, h]

/-- A closed endpoint stays closed under any operation sequence, the
sequence invokes no hook, and a cleared dispatcher stays cleared. -/
theorem run_closed_absorbing (ops : List VNICOp) (n : VNIC)
    (h : n.isclosed = true) :
    (VNIC.run n ops).1.isclosed = true ∧ (VNIC.run n ops).2 = 0 ∧
      (n.disp = none → (VNIC.run n ops).1.disp = none) := by
  induction ops generalizing n with
  | nil => exact ⟨h, rfl, fun hd => hd⟩
  | cons op ops ih =>
    obtain ⟨h1, h2, h3⟩ := step_closed_absorbing n op h
    obtain ⟨g1, g2, g3⟩ := ih (n.step op).1 h1
    refine ⟨g1, ?_, fun hd => g3 (h3 hd)⟩
    simp [VNIC.run, h2, g2]

/-- Operations other than `close` never set the closed flag. -/
theorem step_open_preserved (n : VNIC) (op : VNICOp) (h : n.isclosed = false)
    (hop : op ≠ .close) : (n.step op).1.isclosed = false ∧ (n.step op).2 = 0 := by
  cases op <;> simp_all [VNIC.step, VNIC.Attach]

/-- Over any operation sequence the close hook fires at most once. -/
theorem run_hooks_le_one (ops : List VNICOp) (n : VNIC) :
    (VNIC.run n ops).2 ≤ 1 := by
  induction ops generalizing n with
  | nil => simp [VNIC.run]
  | cons op ops ih =>
    cases hcl : n.isclosed
    · by_cases hop : op = VNICOp.close
      · subst hop
        have hstep : n.step VNICOp.close =
            ({ n with isclosed := true, disp := none },
              if n.closefunc.isSome then 1 else 0) := by
          simp [VNIC.step, VNIC.Close, hcl]
        have hrest := (run_closed_absorbing ops
          { n with isclosed := true, disp := none } rfl).2.1
        simp only [VNIC.run, hstep, hrest]
        split <;> simp
      · obtain ⟨h1, h2⟩ := step_open_preserved n op hcl hop
        simp only [VNIC.run, h2]
        simpa using ih (n.step op).1
    · have h := run_closed_absorbing (op :: ops) n hcl
      omega

/-- A fresh `NewVNIC` satisfies "closed implies no dispatcher". -/
theorem newVNIC_closed_disp (mtu : Nat) (hn : Bool) :
    (NewVNIC mtu hn).isclosed = true → (NewVNIC mtu hn).disp = none := by
  simp [NewVNIC]

/-- "Closed implies no dispatcher" is preserved by every operation
sequence, so it holds of every reachable `VNIC` state. -/
theorem run_preserves_closed_disp (ops : List VNICOp) (n : VNIC)
    (h : n.isclosed = true → n.disp = none) :
    (VNIC.run n ops).1.isclosed = true → (VNIC.run n ops).1.disp = none := by
  induction ops generalizing n with
  | nil => exact h
  | cons op ops ih =>
    have hstep : (n.step op).1.isclosed = true → (n.step op).1.disp = none := by
      cases op with
      | attach d =>
        cases hcl : n.isclosed
        · simp [VNIC.step, VNIC.Attach, hcl]
        · simpa [VNIC.step, VNIC.Attach, hcl] using h hcl
      | close =>
        cases hcl : n.isclosed
        · simp [VNIC.step, VNIC.Close, hcl]
        · simpa [VNIC.step, VNIC.Close, hcl] using h hcl
      | setMTU m => simpa [VNIC.step] using h
      | setLinkAddress a => simpa [VNIC.step] using h
      | setOnCloseAction act => simpa [VNIC.step] using h
    simpa [VNIC.run] using ih (n.step op).1 hstep

/-- C6: once `Close` has run the endpoint stays closed forever and its
dispatcher stays cleared under any further operation sequence; `Attach`
on a closed endpoint is a no-op; `Close` marks closed and clears the
dispatcher; the first `Close` on an open endpoint invokes the registered
hook exactly once (zero times when no hook is registered); a second
`Close` changes nothing and invokes no hook; and over any operation
sequence the hook fires at most once. -/
theorem vnic_close_invariants (n : VNIC) (ops : List VNICOp) (d : Option Nat)
    (hinv : n.isclosed = true → n.disp = none) :
    ((VNIC.run (n.Close).1 ops).1.isclosed = true)
  ∧ ((VNIC.run (n.Close).1 ops).1.disp = none)
  ∧ (n.isclosed = true → n.Attach d = n)
  ∧ ((n.Close).1.isclosed = true ∧ (n.Close).1.disp = none)
  ∧ (n.isclosed = false →
      (n.Close).2 = if n.closefunc.isSome then 1 else 0)
  ∧ ((n.Close).1.Close = ((n.Close).1, 0))
  ∧ ((VNIC.run n ops).2 ≤ 1) := by
  have close_of_closed : ∀ m : VNIC, m.isclosed = true → m.Close = (m, 0) := by
    intro m hm; simp [VNIC.Close, hm]
  have hclosed : (n.Close).1.isclosed = true ∧ (n.Close).1.disp = none := by
    cases hcl : n.isclosed
    · simp [VNIC.Close, hcl]
    · simp [VNIC.Close, hcl, hinv hcl]
  obtain ⟨habs1, _, habs3⟩ :=
    run_closed_absorbing ops (n.Close).1 hclosed.1
  refine ⟨habs1, habs3 hclosed.2, ?_, hclosed, ?_,
    close_of_closed _ hclosed.1, run_hooks_le_one ops n⟩
  · intro hcl; simp [VNIC.Attach, hcl]
  · intro hcl; simp [VNIC.Close, hcl]

/-- Witness for C6: an open endpoint with a registered hook, closed and
then subjected to `[attach (some 1), close]`, stays closed with no
dispatcher; its first close fires the hook once and a second close is
inert. -/
theorem vnic_close_invariants_witness :
    ((VNIC.run ((⟨some (), some 0, true, false, "", 1500⟩ : VNIC).Close).1
        [.attach (some 1), .close]).1.isclosed = true)
  ∧ ((VNIC.run ((⟨some (), some 0, true, false, "", 1500⟩ : VNIC).Close).1
        [.attach (some 1), .close]).1.disp = none)
  ∧ ((⟨some (), some 0, true, false, "", 1500⟩ : VNIC).Close).2 = 1 := by
  have h := vnic_close_invariants (⟨some (), some 0, true, false, "", 1500⟩ : VNIC)
    [.attach (some 1), .close] (some 1) (by decide)
  refine ⟨h.1, h.2.1, ?_⟩
  have h5 := h.2.2.2.2.1 rfl
  simpa using h5

/-- The loop forwards exactly the nonempty, within-MTU frames, in order,
and counts exactly the accepted ones. -/
theorem writeLoop_spec {σ : Type} (send : σ → Frame → σ × Bool) (mtu : Nat)
    (pkts : List Frame) (s : σ) :
    ((writeLoop send mtu pkts s).2.2.map Prod.fst =
      pkts.filter (fun p => decide (0 < p.length ∧ p.length % 2 ^ 32 ≤ mtu)))
  ∧ ((writeLoop send mtu pkts s).1 =
      ((writeLoop send mtu pkts s).2.2.filter Prod.snd).length) := by
  induction pkts generalizing s with
  | nil => simp [writeLoop]
  | cons pb rest ih =>
    by_cases h0 : pb.length ≤ 0
    · have hfilter : ¬ (0 < pb.length ∧ pb.length % 2 ^ 32 ≤ mtu) :=
        fun h => absurd h.1 (by omega)
      simp only [writeLoop, if_pos h0, List.filter_cons]
      rw [if_neg (by simpa using hfilter)]
      exact ih s
    · by_cases hm : pb.length % 2 ^ 32 > mtu
      · have hfilter : ¬ (0 < pb.length ∧ pb.length % 2 ^ 32 ≤ mtu) :=
          fun h => absurd h.2 (Nat.not_le.mpr hm)
        simp only [writeLoop, if_neg h0, if_pos hm, List.filter_cons]
        rw [if_neg (by simpa using hfilter)]
        exact ih s
      · have hfilter : 0 < pb.length ∧ pb.length % 2 ^ 32 ≤ mtu :=
          ⟨by omega, Nat.not_lt.mp hm⟩
        rcases hsend : send s pb with ⟨s1, accepted⟩
        rcases hloop : writeLoop send mtu rest s1 with ⟨num, s2, tr⟩
        have ih1 := (ih s1).1
        have ih2 := (ih s1).2
        rw [hloop] at ih1 ih2
        simp only [writeLoop, if_neg h0, if_neg hm, hsend, hloop,
          List.filter_cons]
        rw [if_pos (by simpa using hfilter)]
        cases accepted <;>
          simp_all [List.filter_cons]

/-- C5 (amended): `VNIC.WritePackets` returns no error; returns zero
immediately when the endpoint is closed or has no fabric reference;
otherwise it forwards exactly the frames of nonzero length whose length
truncated to 32 bits — Go computes `uint32(len(payload))`, i.e.
`len mod 2^32` — does not exceed the MTU to `SendFrame`, in order,
skipping the others without counting them, and counts exactly the frames
the fabric accepted. -/
theorem writePackets_skip_count_spec {σ : Type} (n : VNIC)
    (send : σ → Frame → σ × Bool) (s : σ) (pkts : List Frame) :
    ((n.WritePackets send s pkts).2.2.2 = none)
  ∧ (n.isclosed = true → n.WritePackets send s pkts = (0, s, [], none))
  ∧ (n.hasNetwork = false → n.WritePackets send s pkts = (0, s, [], none))
  ∧ (n.isclosed = false → n.hasNetwork = true →
      ((n.WritePackets send s pkts).2.2.1.map Prod.fst =
        pkts.filter
          (fun p => decide (0 < p.length ∧ p.length % 2 ^ 32 ≤ n.mtu)))
    ∧ ((n.WritePackets send s pkts).1 =
        ((n.WritePackets send s pkts).2.2.1.filter Prod.snd).length)) := by
  refine ⟨?_, ?_, ?_, ?_⟩
  · by_cases hg : (n.isclosed || !n.hasNetwork) = true
    · simp [VNIC.WritePackets, hg]
    · rcases hloop : writeLoop send n.mtu pkts s with ⟨num, s1, tr⟩
      simp [VNIC.WritePackets, hg, hloop]
  · intro hcl; simp [VNIC.WritePackets, hcl]
  · intro hnet; simp [VNIC.WritePackets, hnet]
  · intro hcl hnet
    rcases hloop : writeLoop send n.mtu pkts s with ⟨num, s1, tr⟩
    have hspec := writeLoop_spec send n.mtu pkts s
    rw [hloop] at hspec
    constructor
    · simpa [VNIC.WritePackets, hcl, hnet, hloop] using hspec.1
    · simpa [VNIC.WritePackets, hcl, hnet, hloop] using hspec.2

/-- Witness for C5: with MTU 2 and an always-accepting fabric, the frames
`[]` (empty) and `[1,2,3]` (oversized) are skipped while `[69]` and
`[4,5]` are forwarded and counted; and a closed endpoint sends nothing. -/
theorem writePackets_skip_count_spec_witness :
    ((VNIC.WritePackets (σ := Nat) ⟨none, none, true, false, "", 2⟩
        (fun st f => (st + f.length, true)) 0
        [[], [69], [1, 2, 3], [4, 5]]).2.2.1.map Prod.fst = [[69], [4, 5]])
  ∧ ((VNIC.WritePackets (σ := Nat) ⟨none, none, true, false, "", 2⟩
        (fun st f => (st + f.length, true)) 0
        [[], [69], [1, 2, 3], [4, 5]]).1 = 2)
  ∧ (VNIC.WritePackets (σ := Nat) ⟨none, none, true, true, "", 2⟩
        (fun st f => (st + f.length, true)) 0 [[69]] = (0, 0, [], none)) := by
  have h := writePackets_skip_count_spec (σ := Nat)
    ⟨none, none, true, false, "", 2⟩ (fun st f => (st + f.length, true)) 0
    [[], [69], [1, 2, 3], [4, 5]]
  have h2 := writePackets_skip_count_spec (σ := Nat)
    ⟨none, none, true, true, "", 2⟩ (fun st f => (st + f.length, true)) 0 [[69]]
  obtain ⟨hmap, hcount⟩ := h.2.2.2 rfl rfl
  refine ⟨by rw [hmap]; decide, by rw [hcount]; decide, h2.2.1 rfl⟩

/-- Inserting a fresh key does not disturb any existing binding. -/
theorem lookupRoute_cons_fresh (r : Routes) (k : IPAddr) (v : Nat)
    (a : IPAddr) (w : Nat) (hk : lookupRoute r k = none)
    (ha : lookupRoute r a = some w) :
    lookupRoute ((k, v) :: r) a = some w := by
  have hne : k ≠ a := fun h => by rw [h] at hk; rw [hk] at ha; cases ha
  simp [lookupRoute, hne, ha]

/-- `AddRoute` never removes or rebinds an existing table entry. -/
theorem addRoute_preserves_some (addrs : List IPAddr) (r : Routes) (v : Nat)
    (a : IPAddr) (w : Nat) (h : lookupRoute r a = some w) :
    lookupRoute (Internet.AddRoute r v addrs).1 a = some w := by
  induction addrs generalizing r with
  | nil => exact h
  | cons b rest ih =>
    by_cases hb : (lookupRoute r b).isSome
    · simpa [Internet.AddRoute, hb] using h
    · have hbn : lookupRoute r b = none := by
        cases hx : lookupRoute r b
        · rfl
        · rw [hx] at hb; simp at hb
      simp only [Internet.AddRoute, hb, if_neg]
      exact ih ((b, v) :: r) (lookupRoute_cons_fresh r b v a w hbn h)

/-- A head address already in the table makes `AddRoute` fail
immediately, returning the table unchanged. -/
theorem addRoute_conflict_head (r : Routes) (v : Nat) (a : IPAddr)
    (rest : List IPAddr) (h : (lookupRoute r a).isSome) :
    Internet.AddRoute r v (a :: rest) = (r, some a) := by
  simp [Internet.AddRoute, h]

/-- After a fully successful `AddRoute`, every requested address is bound. -/
theorem addRoute_success_bound (addrs : List IPAddr) (r : Routes) (v : Nat)
    (hok : (Internet.AddRoute r v addrs).2 = none) :
    ∀ a ∈ addrs, (lookupRoute (Internet.AddRoute r v addrs).1 a).isSome := by
  induction addrs generalizing r with
  | nil => intro a ha; cases ha
  | cons b rest ih =>
    by_cases hb : (lookupRoute r b).isSome
    · rw [addRoute_conflict_head r v b rest hb] at hok
      cases hok
    · intro a ha
      simp only [Internet.AddRoute] at hok ⊢
      rw [if_neg (by simpa using hb)] at hok ⊢
      rcases List.mem_cons.mp ha with hab | hmem
      · subst hab
        have hself : lookupRoute ((a, v) :: r) a = some v := by
          simp [lookupRoute]
        rw [addRoute_preserves_some rest ((a, v) :: r) v a v hself]
        rfl
      · exact ih ((b, v) :: r) hok a hmem

/-- C3: `Internet.AddRoute` never disturbs existing bindings (in
particular the conflicting address keeps its old binding); it fails
immediately at the first already-present address, whatever endpoint that
address was bound to; after a successful registration any re-registration
of one of its addresses — by any endpoint — fails at that address; and an
address bound before a later conflict in the same call stays bound (no
rollback). -/
theorem addRoute_first_conflict_no_rollback (routes : Routes) (vnic : Nat)
    (addrs : List IPAddr) :
    (∀ a w, lookupRoute routes a = some w →
        lookupRoute (Internet.AddRoute routes vnic addrs).1 a = some w)
  ∧ (∀ a w rest, lookupRoute routes a = some w →
        Internet.AddRoute routes vnic (a :: rest) = (routes, some a))
  ∧ ((Internet.AddRoute routes vnic addrs).2 = none →
        ∀ a ∈ addrs, ∀ v2 more,
          Internet.AddRoute (Internet.AddRoute routes vnic addrs).1 v2
              (a :: more) =
            ((Internet.AddRoute routes vnic addrs).1, some a))
  ∧ (∀ a rest, lookupRoute routes a = none →
        lookupRoute (Internet.AddRoute routes vnic (a :: rest)).1 a =
          some vnic) := by
  refine ⟨?_, ?_, ?_, ?_⟩
  · intro a w h
    exact addRoute_preserves_some addrs routes vnic a w h
  · intro a w rest h
    exact addRoute_conflict_head routes vnic a rest (by simp [h])
  · intro hok a ha v2 more
    exact addRoute_conflict_head _ v2 a more
      (addRoute_success_bound addrs routes vnic hok a ha)
  · intro a rest h
    have hb : ¬ (lookupRoute routes a).isSome = true := by simp [h]
    have hself : lookupRoute ((a, vnic) :: routes) a = some vnic := by
      simp [lookupRoute]
    simp only [Internet.AddRoute, hb, if_neg]
    exact addRoute_preserves_some rest ((a, vnic) :: routes) vnic a vnic hself

/-- Witness for C3: re-registering `10.0.0.1` (bound to endpoint 7) for
endpoint 9 fails and leaves the table untouched; and registering the same
address twice in one call binds it (no rollback) while reporting the
duplicate. -/
theorem addRoute_first_conflict_no_rollback_witness :
    Internet.AddRoute [([10, 0, 0, 1], 7)] 9 [[10, 0, 0, 1]] =
      ([([10, 0, 0, 1], 7)], some [10, 0, 0, 1])
  ∧ lookupRoute
      (Internet.AddRoute [] 5 [[10, 0, 0, 1], [10, 0, 0, 1]]).1
      [10, 0, 0, 1] = some 5 := by
  refine ⟨?_, ?_⟩
  · exact (addRoute_first_conflict_no_rollback [([10, 0, 0, 1], 7)] 9
      [[10, 0, 0, 1]]).2.1 [10, 0, 0, 1] 7 [] (by decide)
  · exact (addRoute_first_conflict_no_rollback [] 5
      [[10, 0, 0, 1], [10, 0, 0, 1]]).2.2.2 [10, 0, 0, 1] [[10, 0, 0, 1]]
      (by decide)

/-- C1: `Internet.Deliver` is a pure function of routing table and packet
bytes.  A version nibble of 4 with ≥ 20 bytes parses the 4 bytes at
offset 16; a nibble of 6 with ≥ 40 bytes parses the 16 bytes at offset
24; any other nibble, or a packet shorter than the applicable minimum,
returns `false` with no endpoint touched, as does a parsed destination
absent from the table; a present destination causes exactly one
`InjectFrame` call on the mapped endpoint and `Deliver` returns that
call's result. -/
theorem deliver_route_spec (routes : Routes) (vnics : Nat → VNIC)
    (frame : Frame) :
    (20 ≤ frame.length → frame.headD 0 / 16 = 4 →
        internetParseDestinationIP frame = some ((frame.drop 16).take 4))
  ∧ (40 ≤ frame.length → frame.headD 0 / 16 = 6 →
        internetParseDestinationIP frame = some ((frame.drop 24).take 16))
  ∧ (frame.headD 0 / 16 ≠ 4 → frame.headD 0 / 16 ≠ 6 →
        Internet.Deliver routes vnics frame = .ok (false, []))
  ∧ (frame.headD 0 / 16 = 4 → frame.length < 20 →
        Internet.Deliver routes vnics frame = .ok (false, []))
  ∧ (frame.headD 0 / 16 = 6 → frame.length < 40 →
        Internet.Deliver routes vnics frame = .ok (false, []))
  ∧ (∀ dst, internetParseDestinationIP frame = some dst →
        lookupRoute routes dst = none →
        Internet.Deliver routes vnics frame = .ok (false, []))
  ∧ (∀ dst nic r deliv, internetParseDestinationIP frame = some dst →
        lookupRoute routes dst = some nic →
        (vnics nic).InjectFrame frame = .ok (r, deliv) →
        Internet.Deliver routes vnics frame = .ok (r, [(nic, frame)])) := by
  refine ⟨?_, ?_, ?_, ?_, ?_, ?_, ?_⟩
  · intro h20 h4
    cases frame with
    | nil => simp at h20
    | cons b rest =>
      have hb4 : b / 16 = 4 := by simpa using h4
      have hlen : 20 ≤ rest.length + 1 := by simpa using h20
      simp only [internetParseDestinationIP, List.headD_cons, List.length_cons]
      rw [if_neg (by omega), if_pos hb4, if_neg (by omega)]
  · intro h40 h6
    cases frame with
    | nil => simp at h40
    | cons b rest =>
      have hb6 : b / 16 = 6 := by simpa using h6
      have hlen : 40 ≤ rest.length + 1 := by simpa using h40
      simp only [internetParseDestinationIP, List.headD_cons, List.length_cons]
      rw [if_neg (by omega), if_neg (by simp [hb6]), if_pos hb6,
        if_neg (by omega)]
  · intro h4 h6
    have hp : internetParseDestinationIP frame = none := by
      cases frame with
      | nil => rfl
      | cons b rest =>
        have hb4 : ¬ b / 16 = 4 := by simpa using h4
        have hb6 : ¬ b / 16 = 6 := by simpa using h6
        simp [internetParseDestinationIP, hb4, hb6]
    simp [Internet.Deliver, hp]
  · intro h4 h20
    have hp : internetParseDestinationIP frame = none := by
      cases frame with
      | nil => rfl
      | cons b rest =>
        have hb4 : b / 16 = 4 := by simpa using h4
        have hlen : rest.length + 1 < 20 := by simpa using h20
        simp [internetParseDestinationIP, hb4, hlen]
    simp [Internet.Deliver, hp]
  · intro h6 h40
    have hp : internetParseDestinationIP frame = none := by
      cases frame with
      | nil => rfl
      | cons b rest =>
        have hb6 : b / 16 = 6 := by simpa using h6
        have hb4 : ¬ b / 16 = 4 := by simp [hb6]
        have hlen : rest.length + 1 < 40 := by simpa using h40
        simp [internetParseDestinationIP, hb4, hb6, hlen]
    simp [Internet.Deliver, hp]
  · intro dst hp hlk
    simp [Internet.Deliver, hp, hlk]
  · intro dst nic r deliv hp hlk hinj
    simp [Internet.Deliver, hp, hlk, hinj]

/-- Witness for C1: a 20-byte IPv4 packet destined to `10.0.0.1`, which
the table maps to endpoint 1 (open, attached, MTU 1500), is injected into
that endpoint exactly once and delivered. -/
theorem deliver_route_spec_witness :
    Internet.Deliver [([10, 0, 0, 1], 1)]
      (fun _ => ⟨none, some 0, true, false, "", 1500⟩)
      [0x45, 0, 0, 0, 0, 0, 0, 0, 0, 0, 0, 0, 0, 0, 0, 0, 10, 0, 0, 1] =
      .ok (true,
        [(1, [0x45, 0, 0, 0, 0, 0, 0, 0, 0, 0, 0, 0, 0, 0, 0, 0, 10, 0, 0, 1])])
      := by
  exact (deliver_route_spec [([10, 0, 0, 1], 1)]
      (fun _ => ⟨none, some 0, true, false, "", 1500⟩)
      [0x45, 0, 0, 0, 0, 0, 0, 0, 0, 0, 0, 0, 0, 0, 0, 0, 10, 0, 0, 1]
    ).2.2.2.2.2.2 [10, 0, 0, 1] 1 true
      (some (ipv4ProtocolNumber,
        [0x45, 0, 0, 0, 0, 0, 0, 0, 0, 0, 0, 0, 0, 0, 0, 0, 10, 0, 0, 1]))
      (by decide) (by decide) rfl

/-- With a capacity-zero transit queue the loop of `WritePackets` never
counts a frame as sent. -/
theorem writeLoop_cap_zero (mtu : Nat) (pkts : List Frame)
    (s : InternetState) (h : s.cap = 0) :
    (writeLoop internetVNICNetworkSendFrame mtu pkts s).1 = 0 := by
  induction pkts generalizing s with
  | nil => simp [writeLoop]
  | cons pb rest ih =>
    by_cases h0 : pb.length ≤ 0
    · simpa [writeLoop, h0] using ih s h
    · by_cases hm : pb.length % 4294967296 > mtu
      · simpa [writeLoop, h0, hm] using ih s h
      · have hsend : internetVNICNetworkSendFrame s pb = (s, false) := by
          simp [internetVNICNetworkSendFrame, h]
        rcases hloop : writeLoop internetVNICNetworkSendFrame mtu rest s
          with ⟨num, s2, tr⟩
        have hnum : num = 0 := by
          have hih := ih s h
          rw [hloop] at hih
          exact hih
        simp [writeLoop, h0, hm, hsend, hloop, hnum]

/-- C8: a transit queue of capacity zero rejects every frame:
`NewInternet` with `InternetOptionMaxInflight 0` produces an empty
capacity-zero queue, `SendFrame` on a capacity-zero queue always returns
`false` at once without changing the queue (it is a total function, so
it cannot block or deadlock), and a sender's `WritePackets` through such
a queue reports zero frames sent. -/
theorem sendFrame_capacity_zero_spec (ix : InternetState) (frame : Frame)
    (n : VNIC) (s : InternetState) (pkts : List Frame) :
    (NewInternet [InternetOptionMaxInflight 0] = .ok ⟨0, []⟩)
  ∧ (ix.cap = 0 → internetVNICNetworkSendFrame ix frame = (ix, false))
  ∧ (s.cap = 0 →
      (VNIC.WritePackets n internetVNICNetworkSendFrame s pkts).1 = 0) := by
  refine ⟨rfl, ?_, ?_⟩
  · intro h
    simp [internetVNICNetworkSendFrame, h]
  · intro h
    by_cases hg : (n.isclosed || !n.hasNetwork) = true
    · simp [VNIC.WritePackets, hg]
    · rcases hloop : writeLoop internetVNICNetworkSendFrame n.mtu pkts s
        with ⟨num, s1, tr⟩
      have hnum : num = 0 := by
        have hz := writeLoop_cap_zero n.mtu pkts s h
        rw [hloop] at hz
        exact hz
      simp [VNIC.WritePackets, hg, hloop, hnum]

/-- Witness for C8: on the capacity-zero queue just built, sending one
frame fails and leaves the queue empty, and a `WritePackets` of two
frames from an open endpoint reports zero sent. -/
theorem sendFrame_capacity_zero_spec_witness :
    internetVNICNetworkSendFrame ⟨0, []⟩ [0x45] = (⟨0, []⟩, false)
  ∧ (VNIC.WritePackets ⟨none, none, true, false, "", 1500⟩
      internetVNICNetworkSendFrame ⟨0, []⟩ [[0x45], [0x60]]).1 = 0 := by
  have h := sendFrame_capacity_zero_spec ⟨0, []⟩ [0x45]
    ⟨none, none, true, false, "", 1500⟩ ⟨0, []⟩ [[0x45], [0x60]]
  exact ⟨h.2.1 rfl, h.2.2 rfl⟩

/-- C10: `NewInternet` applies `InternetOptionMaxInflight` without
validation: any `n ≥ 0` yields a transit queue of capacity exactly `n`
(`n = 0` gives an unbuffered queue, not the 1024 default, which is used
only when no option is given), while `n < 0` panics when the channel is
made; `PCAPTraceOptionBuffer`, by contrast, silently ignores zero and
negative values. -/
theorem newInternet_option_validation_spec (n : Int) (cfg : pcapTraceConfig) :
    (NewInternet [] = .ok ⟨1024, []⟩)
  ∧ (0 ≤ n → NewInternet [InternetOptionMaxInflight n] = .ok ⟨n.toNat, []⟩)
  ∧ (NewInternet [InternetOptionMaxInflight 0] = .ok ⟨0, []⟩)
  ∧ (n < 0 → NewInternet [InternetOptionMaxInflight n] = .error ())
  ∧ (n ≤ 0 → PCAPTraceOptionBuffer n cfg = cfg) := by
  refine ⟨rfl, ?_, rfl, ?_, ?_⟩
  · intro h
    simp [NewInternet, InternetOptionMaxInflight, Int.not_lt.mpr h]
  · intro h
    simp [NewInternet, InternetOptionMaxInflight, h]
  · intro h
    simp [PCAPTraceOptionBuffer, Int.not_lt.mpr h]

/-- Witness for C10: capacity 7 is taken verbatim, capacity -1 panics,
and a `-3` buffer option leaves the default 4096 untouched. -/
theorem newInternet_option_validation_spec_witness :
    NewInternet [InternetOptionMaxInflight 7] = .ok ⟨7, []⟩
  ∧ NewInternet [InternetOptionMaxInflight (-1)] = .error ()
  ∧ PCAPTraceOptionBuffer (-3) ⟨4096⟩ = ⟨4096⟩ := by
  refine ⟨?_, ?_, ?_⟩
  · exact (newInternet_option_validation_spec 7 ⟨4096⟩).2.1 (by decide)
  · exact (newInternet_option_validation_spec (-1) ⟨4096⟩).2.2.2.1 (by decide)
  · exact (newInternet_option_validation_spec (-3) ⟨4096⟩).2.2.2.2 (by decide)

/-- C7: `Dump` copies exactly `min(len(packet), snapSize)` leading bytes
and the packet's true length into the queue when there is room, leaving
the drop counter alone; on a full queue it only increments the drop
counter; and with queue capacity 1 and nothing draining the queue
(writer blocked), two `Dump` calls leave `Dropped` one above its initial
value. -/
theorem pcapTrace_dump_spec (tr : PCAPTrace) (packet q : Frame) :
    (tr.snaps.length < tr.snapsCap →
        PCAPTraceDump tr packet =
          { tr with snaps := tr.snaps ++
              [{ data := packet.take (min packet.length tr.snapSize),
                 length := packet.length }] })
  ∧ (¬ tr.snaps.length < tr.snapsCap →
        PCAPTraceDump tr packet = { tr with dropped := tr.dropped + 1 })
  ∧ (tr.snapsCap = 1 → tr.snaps = [] →
        PCAPTraceDropped (PCAPTraceDump (PCAPTraceDump tr packet) q) =
          tr.dropped + 1) := by
  refine ⟨?_, ?_, ?_⟩
  · intro h
    simp [PCAPTraceDump, h]
  · intro h
    simp [PCAPTraceDump, h]
  · intro hcap hempty
    have h1 : PCAPTraceDump tr packet =
        { tr with snaps :=
            [{ data := packet.take (min packet.length tr.snapSize),
               length := packet.length }] } := by
      simp [PCAPTraceDump, hempty, hcap]
    rw [h1]
    simp [PCAPTraceDump, PCAPTraceDropped, hcap]

/-- Witness for C7: capacity 1, snapshot limit 2, starting empty with
zero drops: dumping the 3-byte packet `[1,2,3]` stores `[1,2]` with true
length 3, and a second dump is dropped, leaving `Dropped = 1`. -/
theorem pcapTrace_dump_spec_witness :
    PCAPTraceDump ⟨0, [], 1, 2⟩ [1, 2, 3] = ⟨0, [⟨[1, 2], 3⟩], 1, 2⟩
  ∧ PCAPTraceDropped
      (PCAPTraceDump (PCAPTraceDump ⟨0, [], 1, 2⟩ [1, 2, 3]) [4, 5]) = 1 := by
  have h := pcapTrace_dump_spec ⟨0, [], 1, 2⟩ [1, 2, 3] [4, 5]
  refine ⟨?_, h.2.2 rfl rfl⟩
  have h1 := h.1 (by decide)
  simpa using h1

/-- C4 (code bug in pcap.go): with a successful header write, a first
record write failing with error 7, and a clean sink close,
`PcapTrace.Close` returns no error at all — the record-write failure is
lost because `saveLoop` sends nil on `errch` — whereas the PCAPTrace
variant of the same file surfaces exactly that error in the combined
close error, as the claim (and the repository's own
`TestPCAPTraceFirstPacketWriteFails`) requires. -/
theorem pcap_record_write_error_lost :
    PcapTraceCloseResult none [some 7] none = []
  ∧ PCAPTraceCloseResult none [some 7] none = [7]
  ∧ PCAPTraceCloseResult (some 3) [] (some 5) = [3, 5]
  ∧ PCAPTraceCloseResult none [] none = [] := by
  refine ⟨rfl, rfl, rfl, rfl⟩

end UIS
